import Mathlib

set_option autoImplicit false

/-!
Verification development for the siliconcrowds pipeline: the data model and
the operations of `model.py` (the `invoke` retry loop), `prompt.py`
(`Instruction.build_message`), `bucket.py` (`Bucket.list_public_urls`) and
`context.py` (`Contextual.__init__`), embedded shallowly in Lean.

External collaborators (the remote inference endpoint and the blob store)
are modelled as oracles supplied as explicit parameters; Python exceptions
become `Except` values; the Python list that `invoke` copies and extends is
modelled through an explicit store of list cells so that the aliasing
behaviour of `list(messages)` and `.append` is visible.
-/

/-- `MessageRole` enum of `model.py`: the role tag of a conversation message. -/
inductive MessageRole where
  | user
  | system
  | assistant
deriving DecidableEq

/-- One typed content part of a message, as the dict parts of `model.py`
(`MessageType`): either a text part or an image reference part. -/
inductive ContentPart where
  | text (s : String)
  | image_url (u : String)
deriving DecidableEq

/-- `Message` of `model.py`: a role together with an ordered list of content parts. -/
structure Message where
  role : MessageRole
  content : List ContentPart
deriving DecidableEq

/-- `Usage` of `model.py`: the token counters taken from a remote response. -/
structure Usage where
  prompt_tokens : Int
  completion_tokens : Int
  total_tokens : Int
deriving DecidableEq

/-- `Response` of `model.py`, parameterised by the type of the parsed
structured payload. -/
structure Response (P : Type) where
  id : String
  message : Message
  reasoning_content : Option String
  model : String
  usage : Usage
  structured_output : Option P
deriving DecidableEq

/-- The first choice message of a remote chat completion, as used by
`invoke` (`response.choices[0].message`): a role, a content that is either a
plain string or a list of structured parts, and optional reasoning text. -/
structure Choice where
  role : MessageRole
  content : Sum String (List ContentPart)
  reasoning_content : Option String
deriving DecidableEq

/-- A remote chat-completion response, restricted to the fields `invoke`
reads: id, model, usage and the first choice. -/
structure RemoteResponse where
  id : String
  model : String
  usage : Usage
  choice : Choice
deriving DecidableEq

/-- A structured-output schema: `parse` models
`structured_output.model_validate_json`, returning the payload or the
validation-error text used in the corrective message. -/
structure Schema (P : Type) where
  parse : String → Except String P

/-- The distinct failure modes of `invoke`: a schema validation error
(pydantic `ValidationError`, re-raised once the budget is exhausted), a
content-access error (`content[0]["text"]` on a reply without a first text
part, which the loop does not catch), and the defensive `RuntimeError`
after the loop. -/
inductive InvokeError where
  | validation (e : String)
  | contentAccess
  | runtimeExhausted
deriving DecidableEq

/-- A store of Python list cells holding conversations; indices are
references. `list(messages)` allocates a fresh cell, `.append` mutates one
cell in place. -/
structure Store where
  cells : List (List Message)
deriving DecidableEq

/-- Read the list behind a reference (out-of-range reads give `[]`; the
embedding only reads valid references). -/
def Store.read (st : Store) (r : Nat) : List Message :=
  st.cells.getD r []

/-- Allocate a fresh cell holding `v`; returns the new store and the new
reference. Models `list(messages)` building a new Python list. -/
def Store.alloc (st : Store) (v : List Message) : Store × Nat :=
  (⟨st.cells ++ [v]⟩, st.cells.length)

/-- In-place `.append` of one message to the cell behind `r`. -/
def Store.push (st : Store) (r : Nat) (m : Message) : Store :=
  ⟨st.cells.set r (st.cells.getD r [] ++ [m])⟩

/-- `content` normalisation of `invoke`: a plain-string reply is wrapped as
a single text part `[{type: text, text: s}]`; a structured reply is used
as is. -/
def replyContent (r : RemoteResponse) : List ContentPart :=
  match r.choice.content with
  | .inl s => [ContentPart.text s]
  | .inr parts => parts

/-- `content[0]["text"]`: the text of the first content part, or `none`
when the list is empty or the first part has no text key (IndexError or
KeyError in Python, neither caught by the retry loop). -/
def contentText : List ContentPart → Option String
  | [] => none
  | ContentPart.text s :: _ => some s
  | ContentPart.image_url _ :: _ => none

/-- The outcome of extracting and schema-parsing the text of a remote
reply, as one value: `none` when there is no first text part, otherwise
the parse result. -/
def replyParse {P : Type} (sch : Schema P) (r : RemoteResponse) : Option (Except String P) :=
  (contentText (replyContent r)).map sch.parse

/-- The corrective user text `invoke` appends after a validation error. -/
def correctionText (e : String) : String :=
  "Your previous response had a validation error: " ++ e ++
    ". Please correct your response to match the required format."

/-- `Model._build_response`: assemble the `Response` from the remote
response, the (normalised) content and the optional parsed payload. -/
def build_response {P : Type} (r : RemoteResponse) (content : List ContentPart)
    (parsed : Option P) : Response P :=
  { id := r.id
    message := { role := r.choice.role, content := content }
    reasoning_content := r.choice.reasoning_content
    model := r.model
    usage := r.usage
    structured_output := parsed }

/-- The body of the `for attempt in range(retries)` loop of `Model.invoke`.
`oracle k` is the remote response to the k-th call
(`self.client.chat.completions.create`); `cur` is the reference to
`current_messages`; `fuel` is the number of remaining loop iterations
(`retries - attempt` at every reachable call). The result is the final
store, the list of conversations transmitted (one entry per remote call,
in order) and the outcome. Exhausted fuel is the loop falling through to
the trailing `RuntimeError`. -/
def invokeLoop {P : Type} (sch : Option (Schema P)) (oracle : Nat → RemoteResponse)
    (retries : Nat) :
    Nat → Nat → Store → Nat → Store × List (List Message) × Except InvokeError (Response P)
  | 0, _attempt, st, _cur => (st, [], Except.error InvokeError.runtimeExhausted)
  | fuel + 1, attempt, st, cur =>
    let sent := st.read cur
    let r := oracle attempt
    let content := replyContent r
    match sch with
    | none => (st, [sent], Except.ok (build_response r content none))
    | some sc =>
      match contentText content with
      | none => (st, [sent], Except.error InvokeError.contentAccess)
      | some txt =>
        match sc.parse txt with
        | Except.ok payload => (st, [sent], Except.ok (build_response r content (some payload)))
        | Except.error e =>
          if attempt < retries - 1 then
            let st2 := (st.push cur ⟨MessageRole.assistant, content⟩).push cur
              ⟨MessageRole.user, [ContentPart.text (correctionText e)]⟩
            let out := invokeLoop sch oracle retries fuel (attempt + 1) st2 cur
            (out.1, sent :: out.2.1, out.2.2)
          else (st, [sent], Except.error (InvokeError.validation e))

/-- `Model.invoke`: the retry budget is the explicit argument when given,
else the client default (`self.retries`); `current_messages = list(messages)`
copies the caller list into a fresh cell; then the loop runs with
`retries` iterations starting at attempt 0. -/
def invoke {P : Type} (sch : Option (Schema P)) (oracle : Nat → RemoteResponse)
    (retriesArg : Option Nat) (selfRetries : Nat) (st : Store) (msgsRef : Nat) :
    Store × List (List Message) × Except InvokeError (Response P) :=
  let retries := retriesArg.getD selfRetries
  let a := st.alloc (st.read msgsRef)
  invokeLoop sch oracle retries retries 0 a.1 a.2

/-- The (failed assistant reply, corrective user message) pair appended
after the failed attempt `i`, with `err i` the validation-error text of
that attempt. -/
def retryPair (oracle : Nat → RemoteResponse) (err : Nat → String) (i : Nat) : List Message :=
  [⟨MessageRole.assistant, replyContent (oracle i)⟩,
   ⟨MessageRole.user, [ContentPart.text (correctionText (err i))]⟩]

/-- The messages appended by `m` consecutive failed attempts starting at
attempt `i`: the concatenation of the per-attempt pairs, strictly in
(failed assistant reply, corrective user message) order. -/
def retryPairs (oracle : Nat → RemoteResponse) (err : Nat → String) (i : Nat) : Nat → List Message
  | 0 => []
  | m + 1 => retryPair oracle err i ++ retryPairs oracle err (i + 1) m

/-- The conversations transmitted by `m` successive attempts starting at
attempt `i` from base conversation `base`, when every attempt but the last
fails validation: each failed attempt extends the conversation by its
retry pair. -/
def sentConvs (oracle : Nat → RemoteResponse) (err : Nat → String) (base : List Message)
    (i : Nat) : Nat → List (List Message)
  | 0 => []
  | m + 1 => base :: sentConvs oracle err (base ++ retryPair oracle err i) (i + 1) m

/-- `Prompt` row of `prompt.py`. -/
structure Prompt where
  id : Int
  category : String
  system_prompt : String
  user_prompt : String
  template_name : String
  description : Option String
deriving DecidableEq

/-- `Question` row of `prompt.py` (the datetime column is kept opaque as a
string). -/
structure Question where
  id : Int
  question_id : String
  transcript : String
  image_path : String
  norways_answer : String
  actual_outcome : Option String
  air_date : Option String
  answer_type : Option String
deriving DecidableEq

/-- The literal field text `transcript` followed by the closing brace, used
when scanning a format template. -/
def fieldTranscript : List Char := "transcript\x7d".data

/-- The literal field text `image` followed by the closing brace. -/
def fieldImage : List Char := "image\x7d".data

/-- `tmpl.format(transcript=t, image="")` of Python, scanning the template
with explicit fuel (any fuel at least the template length is exact):
doubled braces are unescaped, the two known fields are substituted (the
image field by the empty string), and everything else that Python would
raise on (unknown fields, stray braces) yields `none`. Substituted values
are not rescanned, as in Python. -/
def pyFormatFuel (t : List Char) : Nat → List Char → Option (List Char)
  | _, [] => some []
  | 0, _ :: _ => none
  | f + 1, '{' :: '{' :: rest => (pyFormatFuel t f rest).map (fun r => '{' :: r)
  | f + 1, '}' :: '}' :: rest => (pyFormatFuel t f rest).map (fun r => '}' :: r)
  | f + 1, '{' :: rest =>
    if fieldTranscript.isPrefixOf rest then
      (pyFormatFuel t f (rest.drop 11)).map (fun r => t ++ r)
    else if fieldImage.isPrefixOf rest then
      pyFormatFuel t f (rest.drop 6)
    else none
  | _ + 1, '}' :: _ => none
  | f + 1, c :: rest => (pyFormatFuel t f rest).map (fun r => c :: r)

/-- `tmpl.format(transcript=t, image="")` on full strings. -/
def pyFormat (tmpl : List Char) (t : List Char) : Option (List Char) :=
  pyFormatFuel t tmpl.length tmpl

/-- The image-marker delimiter text of `prompt.py`. -/
def markerChars : List Char := ['#', '#', '#', 'I', 'M', 'A', 'G', 'E', '#', '#', '#']

/-- The marker followed by the newline the regex demands right after it. -/
def markerNL : List Char := markerChars ++ ['\n']

/-- Drop the maximal leading run of newlines. -/
def dropNL (s : List Char) : List Char := s.dropWhile (fun c => c == '\n')

/-- Whether the regex of `build_message` matches at the start of `s`. The
pattern is `\n*###IMAGE###\n.*?\n*`: the greedy leading `\n*` must consume
the whole newline run for the literal marker to follow, the marker must be
followed by a newline, the lazy `.*?` always matches the empty string, and
the trailing `\n*` greedily takes the following newline run. -/
def matchAt (s : List Char) : Bool :=
  markerNL.isPrefixOf (dropNL s)

/-- The remainder of `s` after the regex match at its start: past the
leading newline run, the 12 characters of marker plus newline, and the
trailing newline run. -/
def matchRest (s : List Char) : List Char :=
  dropNL ((dropNL s).drop 12)

/-- `re.sub(r"\n*###IMAGE###\n.*?\n*", "", s)`: scan left to right; at a
match, drop the matched span and continue after it; otherwise emit one
character and move on. Explicit fuel; any fuel at least the length of `s`
is exact because every step consumes at least one character. -/
def imageSubFuel : Nat → List Char → List Char
  | _, [] => []
  | 0, s => s
  | fuel + 1, c :: rest =>
    if matchAt (c :: rest) then imageSubFuel fuel (matchRest (c :: rest))
    else c :: imageSubFuel fuel rest

/-- The regex substitution on a whole string. -/
def imageSub (s : List Char) : List Char := imageSubFuel s.length s

/-- The whitespace set of Python `str.rstrip()` (ASCII part). -/
def pyIsSpace (c : Char) : Bool :=
  c == ' ' || c == '\t' || c == '\n' || c == '\r' || c == Char.ofNat 11 || c == Char.ofNat 12

/-- Python `s.rstrip()`: drop trailing whitespace. -/
def pyRstrip (s : List Char) : List Char :=
  (s.reverse.dropWhile pyIsSpace).reverse

/-- The rendered user text of `Instruction.build_message`: substitute the
transcript and an empty image placeholder, strip the image marker blocks
with the regex, and strip trailing whitespace; `none` when `str.format`
raises. -/
def renderedUserText (p : Prompt) (transcript : String) : Option String :=
  (pyFormat p.user_prompt.data transcript.data).map
    (fun fmt => (pyRstrip (imageSub fmt)).asString)

/-- The extra message carrying the image reference: appended exactly when
the Python `if image_url:` truthiness test passes, that is when an image
URL is present and non-empty. -/
def imageTail : Option String → List Message
  | none => []
  | some u => if u = "" then [] else [⟨MessageRole.user, [ContentPart.image_url u]⟩]

/-- `Instruction.build_message`: a system message with the template system
text, a user message with the rendered user text, and the image message
when an image URL is supplied. -/
def buildMessage (p : Prompt) (transcript : String) (image_url : Option String) :
    Option (List Message) :=
  (renderedUserText p transcript).map (fun txt =>
    [⟨MessageRole.system, [ContentPart.text p.system_prompt]⟩,
     ⟨MessageRole.user, [ContentPart.text txt]⟩] ++ imageTail image_url)

/-- Whether the marker delimiter text occurs anywhere in `s`. -/
def hasMarker : List Char → Bool
  | [] => false
  | c :: rest => markerChars.isPrefixOf (c :: rest) || hasMarker rest

/-- Strings in delimited-block form: a concatenation of hash-free
characters and whole marker lines (the marker immediately followed by a
newline). This is the shape of a template whose markers delimit image
blocks, after substitution. -/
inductive MarkerBlocks : List Char → Prop where
  | nil : MarkerBlocks []
  | char (c : Char) (s : List Char) : c ≠ '#' → MarkerBlocks s → MarkerBlocks (c :: s)
  | block (s : List Char) : MarkerBlocks s → MarkerBlocks (markerNL ++ s)

/-- Executable check for `MarkerBlocks` (sound, see `mbCheck_sound`). -/
def mbCheckFuel : Nat → List Char → Bool
  | _, [] => true
  | 0, _ :: _ => false
  | f + 1, c :: rest =>
    if markerNL.isPrefixOf (c :: rest) then mbCheckFuel f ((c :: rest).drop 12)
    else decide (c ≠ '#') && mbCheckFuel f rest

/-- Executable check for `MarkerBlocks` on a whole string. -/
def mbCheck (s : List Char) : Bool := mbCheckFuel s.length s

/-- One entry of a blob listing, restricted to the `name` field `bucket.py`
reads. -/
structure FileEntry where
  name : String
deriving DecidableEq

/-- The blob-store collaborator of `bucket.py` as an oracle: the raw `list`
response (`none` models a non-list API response, which `list_files`
normalises to the empty list) and the signed URLs returned by
`create_signed_urls` for a batch of paths. -/
structure BucketOracle where
  listResponse : Option (List FileEntry)
  signedUrls : List String → List String

/-- `Bucket.list_files`: the listing, with a non-list response normalised
to `[]`. -/
def list_files (o : BucketOracle) : List FileEntry :=
  o.listResponse.getD []

/-- Python dict `get`: the value of the last binding of the key, if any. -/
def pyDictGet (l : List (String × String)) (k : String) : Option String :=
  (l.reverse.find? (fun p => p.1 == k)).map (fun p => p.2)

/-- The final path component, as `pathlib` takes it (trailing slashes
dropped, then the run up to the previous slash). -/
def lastComponent (s : List Char) : List Char :=
  ((s.reverse.dropWhile (fun c => c == '/')).takeWhile (fun c => c != '/')).reverse

/-- `Path(name).stem`: the final component without its last suffix; a
suffix exists only when the last dot is neither the first nor the last
character of the component. -/
def pyStem (name : String) : String :=
  let base := lastComponent name.data
  let afterDot := (base.reverse.takeWhile (fun c => c != '.')).reverse
  if ('.' ∈ base) ∧ afterDot.length + 1 < base.length ∧ afterDot ≠ [] then
    (base.take (base.length - afterDot.length - 1)).asString
  else base.asString

/-- `Bucket.list_public_urls`: raise a not-found error on an empty listing,
otherwise zip the listed files with the created signed URLs into a dict
keyed by file stem. -/
def list_public_urls (o : BucketOracle) (path : String) :
    Except String (List (String × String)) :=
  let files := list_files o
  if files = [] then Except.error "No files found"
  else
    let filenames := files.map (fun f => path ++ "/" ++ f.name)
    let response := o.signedUrls filenames
    Except.ok ((files.zip response).map (fun fu => (pyStem fu.1.name, fu.2)))

/-- `ContextPrompt` of `context.py`. -/
structure ContextPrompt where
  transcript : String
  image_url : Option String
deriving DecidableEq

/-- `Answer` of `context.py`. -/
structure Answer where
  norways_answer : String
  actual_outcome : Option String
  answer_type : Option String
deriving DecidableEq

/-- `Context` of `context.py`. -/
structure Context where
  id : String
  question_id : String
  prompt : ContextPrompt
  answer : Answer
deriving DecidableEq

/-- The comprehension body of `Contextual.__init__`: the context built for
one question, with `image_url := signed_urls.get(question.question_id)`. -/
def buildContext (signedGet : String → Option String) (q : Question) : Context :=
  { id := toString q.id
    question_id := q.question_id
    prompt := { transcript := q.transcript, image_url := signedGet q.question_id }
    answer := { norways_answer := q.norways_answer
                actual_outcome := q.actual_outcome
                answer_type := q.answer_type } }

/-- `Contextual.__init__` as a function of the question rows and the
bucket oracle: the signed-URL listing (which may raise), then the context
dict keyed by question identifier. -/
def assembleContexts (questions : List Question) (o : BucketOracle) (path : String) :
    Except String (List (String × Context)) :=
  (list_public_urls o path).map (fun signed =>
    questions.map (fun q => (q.question_id, buildContext (pyDictGet signed) q)))

/-- A concrete schema for witnesses: parses exactly the text `42`. -/
def natSchema : Schema Nat :=
  ⟨fun s => if s = "42" then Except.ok 42 else Except.error "bad"⟩

/-- A concrete remote response with a plain-string reply, for witnesses. -/
def mkReply (txt : String) (pt ct tt : Int) : RemoteResponse :=
  { id := "r", model := "m", usage := ⟨pt, ct, tt⟩,
    choice := { role := MessageRole.assistant, content := Sum.inl txt,
                reasoning_content := none } }

/-- A remote whose reply never satisfies `natSchema`. -/
def alwaysBad : Nat → RemoteResponse := fun _ => mkReply "nope" 1 2 3

/-- A remote that fails `natSchema` on the first attempt and satisfies it
from the second on, with different usage counters per attempt. -/
def failThenOK : Nat → RemoteResponse :=
  fun i => if i = 0 then mkReply "nope" 1 2 3 else mkReply "42" 10 20 30

/-- A remote that replies the plain text `Paris`, for witnesses. -/
def parisReply : Nat → RemoteResponse := fun _ => mkReply "Paris" 1 2 3

/-- A one-message caller conversation, for witnesses. -/
def convQ : List Message := [⟨MessageRole.user, [ContentPart.text "Q"]⟩]

/-- A store whose cell 0 holds the caller conversation, for witnesses. -/
def storeQ : Store := ⟨[convQ]⟩

/-- A bucket oracle listing one file, for witnesses. -/
def oneFileBucket : BucketOracle := ⟨some [⟨"q1.png"⟩], fun _ => ["SIGNED"]⟩

/-- A bucket oracle whose listing is empty, for witnesses. -/
def emptyBucket : BucketOracle := ⟨some [], fun _ => []⟩

/-- A concrete question row, for witnesses. -/
def q1Question : Question := ⟨1, "q1", "T", "img", "A", none, none, none⟩

theorem getD_set_self {α : Type} (l : List α) (r : Nat) (v d : α) (h : r < l.length) :
    (l.set r v).getD r d = v := by
  induction l generalizing r with
  | nil => simp at h
  | cons a t ih =>
    cases r with
    | zero => simp
    | succ n => simpa using ih n (by simpa using h)

theorem getD_set_ne {α : Type} (l : List α) (i j : Nat) (v d : α) (h : i ≠ j) :
    (l.set i v).getD j d = l.getD j d := by
  induction l generalizing i j with
  | nil => simp
  | cons a t ih =>
    cases i with
    | zero => cases j with
      | zero => exact absurd rfl h
      | succ m => simp
    | succ n => cases j with
      | zero => simp
      | succ m => simpa using ih n m (by omega)

theorem getD_append_lt {α : Type} (l : List α) (v d : α) (r : Nat) (h : r < l.length) :
    (l ++ [v]).getD r d = l.getD r d := by
  induction l generalizing r with
  | nil => simp at h
  | cons a t ih =>
    cases r with
    | zero => simp
    | succ n => simpa using ih n (by simpa using h)

theorem getD_append_len {α : Type} (l : List α) (v d : α) :
    (l ++ [v]).getD l.length d = v := by
  induction l with
  | nil => simp
  | cons a t ih => simp [ih]

theorem Store.read_alloc_self (st : Store) (v : List Message) :
    (st.alloc v).1.read (st.alloc v).2 = v :=
  getD_append_len st.cells v []

theorem Store.read_alloc_lt (st : Store) (v : List Message) (r : Nat)
    (h : r < st.cells.length) : (st.alloc v).1.read r = st.read r :=
  getD_append_lt st.cells v [] r h

theorem Store.read_push_self (st : Store) (r : Nat) (m : Message)
    (h : r < st.cells.length) : (st.push r m).read r = st.read r ++ [m] :=
  getD_set_self st.cells r _ [] h

theorem Store.read_push_ne (st : Store) (r q : Nat) (m : Message) (h : q ≠ r) :
    (st.push q m).read r = st.read r :=
  getD_set_ne st.cells q r _ [] h

theorem Store.length_push (st : Store) (r : Nat) (m : Message) :
    (st.push r m).cells.length = st.cells.length := by
  simp [Store.push]

theorem dropNL_markerNL_append (u : List Char) : dropNL (markerNL ++ u) = markerNL ++ u := rfl

theorem matchAt_markerNL_append (u : List Char) : matchAt (markerNL ++ u) = true := by
  unfold matchAt
  rw [dropNL_markerNL_append]
  exact List.isPrefixOf_iff_prefix.mpr ⟨u, rfl⟩

theorem matchRest_length (s : List Char) (h : matchAt s = true) :
    (matchRest s).length + 12 ≤ s.length := by
  have h1 : markerNL <+: dropNL s := List.isPrefixOf_iff_prefix.mp h
  have h2 : 12 ≤ (dropNL s).length := h1.length_le
  have h3 : (dropNL s).length ≤ s.length := (List.dropWhile_sublist _).length_le
  have h4 : (matchRest s).length ≤ ((dropNL s).drop 12).length :=
    (List.dropWhile_sublist _).length_le
  rw [List.length_drop] at h4
  omega

theorem mb_dropNL {s : List Char} (h : MarkerBlocks s) : MarkerBlocks (dropNL s) := by
  induction h with
  | nil => exact MarkerBlocks.nil
  | char c s hc hs ih =>
    by_cases hcn : c = '\n'
    · subst hcn
      rw [show dropNL ('\n' :: s) = dropNL s from by simp [dropNL]]
      exact ih
    · rw [show dropNL (c :: s) = c :: s from by simp [dropNL, List.dropWhile_cons, hcn]]
      exact MarkerBlocks.char c s hc hs
  | block s hs ih =>
    rw [dropNL_markerNL_append]
    exact MarkerBlocks.block s hs

theorem mb_split {t : List Char} (h : MarkerBlocks t) (hp : markerNL.isPrefixOf t = true) :
    MarkerBlocks (t.drop 12) := by
  cases h with
  | nil => simp [markerNL, markerChars, List.isPrefixOf] at hp
  | char c s hc hs =>
    exfalso
    obtain ⟨u, hu⟩ := List.isPrefixOf_iff_prefix.mp hp
    have h1 := congrArg List.head? hu
    simp [markerNL, markerChars] at h1
    exact hc h1.symm
  | block s hs =>
    have h12 : markerNL.length = 12 := rfl
    rw [← h12, List.drop_left]
    exact hs

theorem mb_noHashFuel : ∀ (fuel : Nat) (s : List Char), s.length ≤ fuel → MarkerBlocks s →
    '#' ∉ imageSubFuel fuel s := by
  intro fuel
  induction fuel with
  | zero =>
    intro s hl hmb
    cases s with
    | nil => simp [imageSubFuel]
    | cons c rest => simp at hl
  | succ f ih =>
    intro s hl hmb
    cases s with
    | nil => simp [imageSubFuel]
    | cons c rest =>
      by_cases hm : matchAt (c :: rest)
      · rw [show imageSubFuel (f + 1) (c :: rest) = imageSubFuel f (matchRest (c :: rest)) from
          by simp [imageSubFuel, hm]]
        have hlen := matchRest_length (c :: rest) hm
        have hx : (c :: rest).length = rest.length + 1 := rfl
        have h1 : MarkerBlocks (dropNL (c :: rest)) := mb_dropNL hmb
        have h2 : MarkerBlocks ((dropNL (c :: rest)).drop 12) := mb_split h1 hm
        refine ih _ ?_ (mb_dropNL h2)
        simp at hl
        omega
      · cases hmb with
        | char _ _ hc hs =>
          rw [show imageSubFuel (f + 1) (c :: rest) = c :: imageSubFuel f rest from
            by simp [imageSubFuel, hm]]
          intro hmem
          rcases List.mem_cons.mp hmem with h | h
          · exact hc h.symm
          · exact ih rest (by simp at hl; omega) hs h
        | block s hs =>
          exact absurd (matchAt_markerNL_append s) hm

theorem hasMarker_eq_false {l : List Char} (h : '#' ∉ l) : hasMarker l = false := by
  induction l with
  | nil => rfl
  | cons c rest ih =>
    have hr : '#' ∉ rest := fun hm => h (List.mem_cons_of_mem c hm)
    cases hpre : markerChars.isPrefixOf (c :: rest) with
    | false => simp [hasMarker, hpre, ih hr]
    | true =>
      exfalso
      obtain ⟨u, hu⟩ := List.isPrefixOf_iff_prefix.mp hpre
      have h1 := congrArg List.head? hu
      simp [markerChars] at h1
      exact h (h1 ▸ List.mem_cons_self c rest)

theorem mem_pyRstrip {a : Char} {l : List Char} (h : a ∈ pyRstrip l) : a ∈ l := by
  unfold pyRstrip at h
  rw [List.mem_reverse] at h
  exact List.mem_reverse.mp ((List.dropWhile_sublist _).mem h)

theorem mbCheckFuel_sound : ∀ (f : Nat) (s : List Char), mbCheckFuel f s = true →
    MarkerBlocks s := by
  intro f
  induction f with
  | zero =>
    intro s h
    cases s with
    | nil => exact MarkerBlocks.nil
    | cons c rest => simp [mbCheckFuel] at h
  | succ f ih =>
    intro s h
    cases s with
    | nil => exact MarkerBlocks.nil
    | cons c rest =>
      by_cases hp : markerNL.isPrefixOf (c :: rest)
      · obtain ⟨u, hu⟩ := List.isPrefixOf_iff_prefix.mp hp
        have h12 : markerNL.length = 12 := rfl
        have hdrop : (c :: rest).drop 12 = u := by rw [← hu, ← h12, List.drop_left]
        rw [show mbCheckFuel (f + 1) (c :: rest) = mbCheckFuel f ((c :: rest).drop 12) from
          by simp [mbCheckFuel, hp]] at h
        rw [hdrop] at h
        rw [← hu]
        exact MarkerBlocks.block u (ih u h)
      · rw [show mbCheckFuel (f + 1) (c :: rest) = (decide (c ≠ '#') && mbCheckFuel f rest) from
          by simp [mbCheckFuel, hp]] at h
        simp only [Bool.and_eq_true, decide_eq_true_eq] at h
        exact MarkerBlocks.char c rest h.1 (ih rest h.2)

theorem mbCheck_sound (s : List Char) (h : mbCheck s = true) : MarkerBlocks s :=
  mbCheckFuel_sound _ s h

theorem noMarker_of_markerBlocks (fmt : List Char) (h : MarkerBlocks fmt) :
    hasMarker (pyRstrip (imageSub fmt)) = false := by
  apply hasMarker_eq_false
  intro hmem
  exact mb_noHashFuel fmt.length fmt (Nat.le_refl _) h (mem_pyRstrip hmem)

theorem replyParse_elim {P : Type} (sch : Schema P) (r : RemoteResponse) (v : Except String P)
    (h : replyParse sch r = some v) :
    ∃ txt, contentText (replyContent r) = some txt ∧ sch.parse txt = v := by
  unfold replyParse at h
  exact Option.map_eq_some'.mp h

theorem invokeLoop_all_fail {P : Type} (sch : Schema P) (oracle : Nat → RemoteResponse)
    (err : Nat → String) (n : Nat)
    (hfail : ∀ k, replyParse sch (oracle k) = some (Except.error (err k))) :
    ∀ (fuel attempt : Nat) (st : Store) (cur : Nat), 1 ≤ fuel → fuel + attempt = n →
      (invokeLoop (some sch) oracle n fuel attempt st cur).2.1.length = fuel ∧
      (invokeLoop (some sch) oracle n fuel attempt st cur).2.2 =
        Except.error (InvokeError.validation (err (n - 1))) := by
  intro fuel
  induction fuel with
  | zero => intro attempt st cur h1 h2; omega
  | succ f ih =>
    intro attempt st cur h1 h2
    obtain ⟨txt, htxt, hparse⟩ := replyParse_elim sch (oracle attempt) _ (hfail attempt)
    by_cases hlast : attempt < n - 1
    · have hf1 : 1 ≤ f := by omega
      simp only [invokeLoop, htxt, hparse, if_pos hlast]
      have hrec := ih (attempt + 1)
        ((st.push cur ⟨MessageRole.assistant, replyContent (oracle attempt)⟩).push cur
          ⟨MessageRole.user, [ContentPart.text (correctionText (err attempt))]⟩) cur hf1 (by omega)
      exact ⟨by simp [hrec.1], hrec.2⟩
    · simp only [invokeLoop, htxt, hparse, if_neg hlast]
      have hatt : attempt = n - 1 := by omega
      exact ⟨by simp; omega, by simp [hatt]⟩

theorem invokeLoop_frame {P : Type} (sch : Option (Schema P)) (oracle : Nat → RemoteResponse)
    (retries : Nat) :
    ∀ (fuel attempt : Nat) (st : Store) (cur r : Nat), r ≠ cur →
      (invokeLoop sch oracle retries fuel attempt st cur).1.read r = st.read r := by
  intro fuel
  induction fuel with
  | zero => intro attempt st cur r hr; rfl
  | succ f ih =>
    intro attempt st cur r hr
    cases sch with
    | none => rfl
    | some sc =>
      cases htxt : contentText (replyContent (oracle attempt)) with
      | none => simp [invokeLoop, htxt]
      | some txt =>
        cases hp : sc.parse txt with
        | ok payload => simp [invokeLoop, htxt, hp]
        | error e =>
          by_cases hlast : attempt < retries - 1
          · simp only [invokeLoop, htxt, hp, if_pos hlast]
            rw [ih (attempt + 1) _ cur r hr, Store.read_push_ne _ _ _ _ hr.symm,
              Store.read_push_ne _ _ _ _ hr.symm]
          · simp [invokeLoop, htxt, hp, if_neg hlast]

theorem invokeLoop_usage {P : Type} (sch : Option (Schema P)) (oracle : Nat → RemoteResponse)
    (retries : Nat) :
    ∀ (fuel attempt : Nat) (st : Store) (cur : Nat) (resp : Response P),
      (invokeLoop sch oracle retries fuel attempt st cur).2.2 = Except.ok resp →
      1 ≤ (invokeLoop sch oracle retries fuel attempt st cur).2.1.length ∧
      resp.usage =
        (oracle (attempt + ((invokeLoop sch oracle retries fuel attempt st cur).2.1.length - 1))).usage := by
  intro fuel
  induction fuel with
  | zero => intro attempt st cur resp h; exact absurd h (by simp [invokeLoop])
  | succ f ih =>
    intro attempt st cur resp h
    cases sch with
    | none =>
      simp only [invokeLoop] at h ⊢
      rw [Except.ok.injEq] at h
      subst h
      simp [build_response]
    | some sc =>
      cases htxt : contentText (replyContent (oracle attempt)) with
      | none => exact absurd h (by simp [invokeLoop, htxt])
      | some txt =>
        cases hp : sc.parse txt with
        | ok payload =>
          simp only [invokeLoop, htxt, hp] at h ⊢
          rw [Except.ok.injEq] at h
          subst h
          simp [build_response]
        | error e =>
          by_cases hlast : attempt < retries - 1
          · simp only [invokeLoop, htxt, hp, if_pos hlast] at h ⊢
            obtain ⟨h1, h2⟩ := ih (attempt + 1) _ cur resp h
            refine ⟨by simp, ?_⟩
            rw [h2]
            have harg : attempt + 1 +
                ((invokeLoop (some sc) oracle retries f (attempt + 1)
                  ((st.push cur ⟨MessageRole.assistant, replyContent (oracle attempt)⟩).push cur
                    ⟨MessageRole.user, [ContentPart.text (correctionText e)]⟩) cur).2.1.length - 1) =
                attempt +
                ((invokeLoop (some sc) oracle retries f (attempt + 1)
                  ((st.push cur ⟨MessageRole.assistant, replyContent (oracle attempt)⟩).push cur
                    ⟨MessageRole.user, [ContentPart.text (correctionText e)]⟩) cur).2.1.length + 1 - 1) := by
              omega
            rw [List.length_cons, harg]
          · exact absurd h (by simp [invokeLoop, htxt, hp, if_neg hlast])

theorem sentConvs_length (oracle : Nat → RemoteResponse) (err : Nat → String) :
    ∀ (m : Nat) (base : List Message) (i : Nat),
      (sentConvs oracle err base i m).length = m := by
  intro m
  induction m with
  | zero => intro base i; rfl
  | succ m ih => intro base i; simp [sentConvs, ih]

theorem retryPairs_length (oracle : Nat → RemoteResponse) (err : Nat → String) :
    ∀ (m i : Nat), (retryPairs oracle err i m).length = 2 * m := by
  intro m
  induction m with
  | zero => intro i; rfl
  | succ m ih => intro i; simp [retryPairs, retryPair, ih]; omega

theorem sentConvs_getLast (oracle : Nat → RemoteResponse) (err : Nat → String) :
    ∀ (m : Nat) (base : List Message) (i : Nat),
      (sentConvs oracle err base i (m + 1)).get? m =
        some (base ++ retryPairs oracle err i m) := by
  intro m
  induction m with
  | zero => intro base i; simp [sentConvs, retryPairs]
  | succ m ih =>
    intro base i
    show (base :: sentConvs oracle err (base ++ retryPair oracle err i) (i + 1) (m + 1)).get?
      (m + 1) = _
    rw [List.get?_cons_succ, ih]
    simp [retryPairs, List.append_assoc]

theorem invokeLoop_trace {P : Type} (sch : Schema P) (oracle : Nat → RemoteResponse)
    (err : Nat → String) (n : Nat) (payload : P) :
    ∀ (m fuel attempt : Nat) (st : Store) (cur : Nat),
      fuel + attempt = n → m < fuel → cur < st.cells.length →
      (∀ i, i < m →
        replyParse sch (oracle (attempt + i)) = some (Except.error (err (attempt + i)))) →
      replyParse sch (oracle (attempt + m)) = some (Except.ok payload) →
      (invokeLoop (some sch) oracle n fuel attempt st cur).2.1 =
        sentConvs oracle err (st.read cur) attempt (m + 1) ∧
      (invokeLoop (some sch) oracle n fuel attempt st cur).2.2 =
        Except.ok (build_response (oracle (attempt + m))
          (replyContent (oracle (attempt + m))) (some payload)) := by
  intro m
  induction m with
  | zero =>
    intro fuel attempt st cur hfn hmf hcur hfail hsucc
    obtain ⟨f, rfl⟩ : ∃ f, fuel = f + 1 := ⟨fuel - 1, by omega⟩
    rw [Nat.add_zero] at hsucc
    obtain ⟨txt, htxt, hp⟩ := replyParse_elim sch (oracle attempt) _ hsucc
    simp only [invokeLoop, htxt, hp]
    exact ⟨by simp [sentConvs], by simp⟩
  | succ m ih =>
    intro fuel attempt st cur hfn hmf hcur hfail hsucc
    obtain ⟨f, rfl⟩ : ∃ f, fuel = f + 1 := ⟨fuel - 1, by omega⟩
    have h0 := hfail 0 (by omega)
    rw [Nat.add_zero] at h0
    obtain ⟨txt, htxt, hp⟩ := replyParse_elim sch (oracle attempt) _ h0
    have hlast : attempt < n - 1 := by omega
    simp only [invokeLoop, htxt, hp, if_pos hlast]
    have hcur2 : cur <
        ((st.push cur ⟨MessageRole.assistant, replyContent (oracle attempt)⟩).push cur
          ⟨MessageRole.user, [ContentPart.text (correctionText (err attempt))]⟩).cells.length := by
      rw [Store.length_push, Store.length_push]; exact hcur
    have hfail2 : ∀ i, i < m →
        replyParse sch (oracle (attempt + 1 + i)) = some (Except.error (err (attempt + 1 + i))) := by
      intro i hi
      have := hfail (i + 1) (by omega)
      rw [show attempt + (i + 1) = attempt + 1 + i from by omega] at this
      exact this
    have hsucc2 : replyParse sch (oracle (attempt + 1 + m)) = some (Except.ok payload) := by
      rw [show attempt + 1 + m = attempt + (m + 1) from by omega]
      exact hsucc
    have hrec := ih f (attempt + 1)
      ((st.push cur ⟨MessageRole.assistant, replyContent (oracle attempt)⟩).push cur
        ⟨MessageRole.user, [ContentPart.text (correctionText (err attempt))]⟩) cur
      (by omega) (by omega) hcur2 hfail2 hsucc2
    have hread2 :
        ((st.push cur ⟨MessageRole.assistant, replyContent (oracle attempt)⟩).push cur
          ⟨MessageRole.user, [ContentPart.text (correctionText (err attempt))]⟩).read cur =
        st.read cur ++ retryPair oracle err attempt := by
      rw [Store.read_push_self _ _ _ (by rw [Store.length_push]; exact hcur),
        Store.read_push_self _ _ _ hcur]
      simp [retryPair, List.append_assoc]
    constructor
    · show _ :: (invokeLoop (some sch) oracle n f (attempt + 1) _ cur).2.1 = _
      rw [hrec.1, hread2]
      rfl
    · show (invokeLoop (some sch) oracle n f (attempt + 1) _ cur).2.2 = _
      rw [hrec.2, show attempt + 1 + m = attempt + (m + 1) from by omega]

theorem pyDictGet_isSome (l : List (String × String)) (k : String) :
    (pyDictGet l k).isSome ↔ ∃ p ∈ l, p.1 = k := by
  simp [pyDictGet, List.find?_isSome, List.mem_reverse]

/-- C1: for every retry budget `n ≥ 1` and every schema the remote replies
never satisfy, `invoke` makes exactly `n` attempts (the transmission trace
has length `n`, one remote call each) and raises the validation error of
the nth attempt instead of swallowing it or returning a result. -/
theorem invoke_exhausts_retries {P : Type} (sch : Schema P) (oracle : Nat → RemoteResponse)
    (err : Nat → String) (n selfRetries : Nat) (st : Store) (msgsRef : Nat)
    (hn : 1 ≤ n)
    (hfail : ∀ k, replyParse sch (oracle k) = some (Except.error (err k))) :
    (invoke (some sch) oracle (some n) selfRetries st msgsRef).2.1.length = n ∧
    (invoke (some sch) oracle (some n) selfRetries st msgsRef).2.2 =
      Except.error (InvokeError.validation (err (n - 1))) :=
  invokeLoop_all_fail sch oracle err n hfail n 0
    (st.alloc (st.read msgsRef)).1 (st.alloc (st.read msgsRef)).2 hn (by omega)

/-- C1 witness: with budget 2 and a remote that always replies `nope`
against the schema accepting only `42`, `invoke` transmits twice and
raises the validation error `bad`. -/
theorem invoke_exhausts_retries_witness :
    (invoke (some natSchema) alwaysBad (some 2) 5 storeQ 0).2.1.length = 2 ∧
    (invoke (some natSchema) alwaysBad (some 2) 5 storeQ 0).2.2 =
      Except.error (InvokeError.validation "bad") :=
  invoke_exhausts_retries natSchema alwaysBad (fun _ => "bad") 2 5 storeQ 0 (by decide)
    (fun _ => rfl)

/-- C2: for every budget `n ≥ 2` and reply sequence failing validation on
attempts `1..k-1` and succeeding on attempt `k < n`, `invoke` returns the
successful result; the trace has length `k` and its last entry, the
conversation transmitted on attempt `k`, is the original conversation
followed by the `k - 1` (failed assistant reply, corrective user message)
pairs, hence exactly `2(k-1)` extra messages. -/
theorem invoke_retry_success {P : Type} (sch : Schema P) (oracle : Nat → RemoteResponse)
    (err : Nat → String) (n k selfRetries : Nat) (payload : P) (st : Store) (msgsRef : Nat)
    (_hn : 2 ≤ n) (hk1 : 1 ≤ k) (hkn : k < n)
    (hfail : ∀ i, i + 1 < k → replyParse sch (oracle i) = some (Except.error (err i)))
    (hsucc : replyParse sch (oracle (k - 1)) = some (Except.ok payload)) :
    (invoke (some sch) oracle (some n) selfRetries st msgsRef).2.2 =
      Except.ok (build_response (oracle (k - 1)) (replyContent (oracle (k - 1)))
        (some payload)) ∧
    (invoke (some sch) oracle (some n) selfRetries st msgsRef).2.1.length = k ∧
    (invoke (some sch) oracle (some n) selfRetries st msgsRef).2.1.get? (k - 1) =
      some (st.read msgsRef ++ retryPairs oracle err 0 (k - 1)) ∧
    (st.read msgsRef ++ retryPairs oracle err 0 (k - 1)).length =
      (st.read msgsRef).length + 2 * (k - 1) := by
  have halloc : (st.alloc (st.read msgsRef)).2 < (st.alloc (st.read msgsRef)).1.cells.length := by
    simp [Store.alloc]
  have hread : (st.alloc (st.read msgsRef)).1.read (st.alloc (st.read msgsRef)).2 =
      st.read msgsRef := Store.read_alloc_self st _
  have hfail2 : ∀ i, i < k - 1 →
      replyParse sch (oracle (0 + i)) = some (Except.error (err (0 + i))) := by
    intro i hi
    simpa using hfail i (by omega)
  have hsucc2 : replyParse sch (oracle (0 + (k - 1))) = some (Except.ok payload) := by
    simpa using hsucc
  have htr := invokeLoop_trace sch oracle err n payload (k - 1) n 0
    (st.alloc (st.read msgsRef)).1 (st.alloc (st.read msgsRef)).2
    (by omega) (by omega) halloc hfail2 hsucc2
  rw [hread] at htr
  have hk : k - 1 + 1 = k := by omega
  refine ⟨?_, ?_, ?_, ?_⟩
  · have := htr.2
    rw [Nat.zero_add] at this
    exact this
  · show (invokeLoop (some sch) oracle n n 0 _ _).2.1.length = k
    rw [htr.1, sentConvs_length, hk]
  · show (invokeLoop (some sch) oracle n n 0 _ _).2.1.get? (k - 1) = _
    rw [htr.1, sentConvs_getLast]
  · rw [List.length_append, retryPairs_length]

/-- C2 witness: budget 3, failure on attempt 1 and success on attempt 2;
the conversation transmitted on attempt 2 is the original message followed
by one (failed assistant, corrective user) pair, two extra messages. -/
theorem invoke_retry_success_witness :
    (invoke (some natSchema) failThenOK (some 3) 5 storeQ 0).2.2 =
      Except.ok (build_response (failThenOK 1) (replyContent (failThenOK 1)) (some 42)) ∧
    (invoke (some natSchema) failThenOK (some 3) 5 storeQ 0).2.1.length = 2 ∧
    (invoke (some natSchema) failThenOK (some 3) 5 storeQ 0).2.1.get? 1 =
      some (storeQ.read 0 ++ retryPairs failThenOK (fun _ => "bad") 0 1) ∧
    (storeQ.read 0 ++ retryPairs failThenOK (fun _ => "bad") 0 1).length =
      (storeQ.read 0).length + 2 * 1 :=
  invoke_retry_success natSchema failThenOK (fun _ => "bad") 3 2 5 42 storeQ 0
    (by decide) (by decide) (by decide)
    (fun i hi => by
      have : i = 0 := by omega
      subst this
      rfl)
    rfl

/-- C3 counterexample: with the marker placed at the end of the template
with no following newline, the regex (which requires a newline right after
the marker) does not match, and the rendered user message still contains
the marker delimiter text. -/
theorem build_message_marker_counterexample :
    buildMessage ⟨1, "baseline", "S", "Hello ###IMAGE###", "t1", none⟩ "T" none =
      some [⟨MessageRole.system, [ContentPart.text "S"]⟩,
            ⟨MessageRole.user, [ContentPart.text "Hello ###IMAGE###"]⟩] ∧
    hasMarker "Hello ###IMAGE###".data = true :=
  ⟨rfl, by decide⟩

/-- C3 (amended): rendering with no image supplied leaves no occurrence of
the marker delimiter text in the rendered user message, provided the
formatted user text is in delimited-block form: a concatenation of
hash-free characters and whole marker lines, each marker immediately
followed by a newline. (Without that proviso the claim fails: a marker
not followed by a newline survives, and marker fragments adjacent to a
removed block can splice into a fresh marker.) -/
theorem build_message_no_marker (p : Prompt) (t : String) (fmt : List Char)
    (hfmt : pyFormat p.user_prompt.data t.data = some fmt) (hmb : MarkerBlocks fmt) :
    buildMessage p t none =
      some [⟨MessageRole.system, [ContentPart.text p.system_prompt]⟩,
            ⟨MessageRole.user, [ContentPart.text (pyRstrip (imageSub fmt)).asString]⟩] ∧
    hasMarker (pyRstrip (imageSub fmt)) = false := by
  refine ⟨?_, noMarker_of_markerBlocks fmt hmb⟩
  simp [buildMessage, renderedUserText, hfmt, imageTail]

/-- C3 witness: a template whose marker block delimits the image
placeholder renders, with no image, to a user message free of the marker. -/
theorem build_message_no_marker_witness :
    buildMessage ⟨1, "baseline", "S", "A: {transcript}\n###IMAGE###\n{image}\n###IMAGE###\n",
        "t1", none⟩ "T" none =
      some [⟨MessageRole.system, [ContentPart.text "S"]⟩,
            ⟨MessageRole.user, [ContentPart.text
              (pyRstrip (imageSub "A: T\n###IMAGE###\n\n###IMAGE###\n".data)).asString]⟩] ∧
    hasMarker (pyRstrip (imageSub "A: T\n###IMAGE###\n\n###IMAGE###\n".data)) = false :=
  build_message_no_marker _ "T" _ rfl (mbCheck_sound _ (by decide))

/-- C4: with no structured schema, `invoke` transmits exactly once (the
caller conversation itself, so no retry happens in this path), returns the
reply wrapped through `build_response` on the first attempt with no parsed
payload, and the message carries the assistant role of the reply. -/
theorem invoke_no_schema {P : Type} (oracle : Nat → RemoteResponse) (n selfRetries : Nat)
    (st : Store) (msgsRef : Nat) (hn : 1 ≤ n)
    (hrole : (oracle 0).choice.role = MessageRole.assistant) :
    (invoke (P := P) none oracle (some n) selfRetries st msgsRef).2.1 = [st.read msgsRef] ∧
    (invoke (P := P) none oracle (some n) selfRetries st msgsRef).2.2 =
      Except.ok (build_response (oracle 0) (replyContent (oracle 0)) none) ∧
    (build_response (P := P) (oracle 0) (replyContent (oracle 0)) none).message.role =
      MessageRole.assistant ∧
    (build_response (P := P) (oracle 0) (replyContent (oracle 0)) none).structured_output =
      none := by
  obtain ⟨f, rfl⟩ : ∃ f, n = f + 1 := ⟨n - 1, by omega⟩
  refine ⟨?_, rfl, hrole, rfl⟩
  show (invokeLoop (P := P) none oracle (f + 1) (f + 1) 0
    (st.alloc (st.read msgsRef)).1 (st.alloc (st.read msgsRef)).2).2.1 = _
  simp only [invokeLoop]
  rw [Store.read_alloc_self]

/-- C4 witness: a plain-text reply `Paris` with no schema returns on the
first attempt, and the result content is the single text part `Paris`. -/
theorem invoke_no_schema_witness :
    ((invoke (P := Nat) none parisReply (some 2) 5 storeQ 0).2.1 = [storeQ.read 0] ∧
     (invoke (P := Nat) none parisReply (some 2) 5 storeQ 0).2.2 =
       Except.ok (build_response (parisReply 0) (replyContent (parisReply 0)) none) ∧
     (build_response (P := Nat) (parisReply 0) (replyContent (parisReply 0))
       none).message.role = MessageRole.assistant ∧
     (build_response (P := Nat) (parisReply 0) (replyContent (parisReply 0))
       none).structured_output = none) ∧
    (build_response (P := Nat) (parisReply 0) (replyContent (parisReply 0))
      none).message.content = [ContentPart.text "Paris"] :=
  ⟨invoke_no_schema parisReply 2 5 storeQ 0 (by decide) rfl, rfl⟩

/-- C5: for every template, transcript and non-empty image URL on which
rendering succeeds, `build_message` produces exactly three messages: the
system message with the template system text, the user message with the
rendered user text, and after them one more user message whose sole
content part is the image reference. -/
theorem build_message_with_image (p : Prompt) (t u txt : String) (hu : u ≠ "")
    (h : renderedUserText p t = some txt) :
    buildMessage p t (some u) =
      some [⟨MessageRole.system, [ContentPart.text p.system_prompt]⟩,
            ⟨MessageRole.user, [ContentPart.text txt]⟩,
            ⟨MessageRole.user, [ContentPart.image_url u]⟩] := by
  simp [buildMessage, h, imageTail, hu]

/-- C5 witness: a concrete template with transcript `T` and an image URL
yields the three expected messages. -/
theorem build_message_with_image_witness :
    buildMessage ⟨1, "baseline", "S", "Q: {transcript}", "t1", none⟩ "T" (some "http:x") =
      some [⟨MessageRole.system, [ContentPart.text "S"]⟩,
            ⟨MessageRole.user, [ContentPart.text "Q: T"]⟩,
            ⟨MessageRole.user, [ContentPart.image_url "http:x"]⟩] :=
  build_message_with_image _ "T" "http:x" "Q: T" (by decide) rfl

/-- C10: `build_message` renders the user text the same way whether or not
an image URL is supplied (the image placeholder is substituted by the
empty string and the marker block stripped unconditionally); the image
only ever appears as the separate message appended after the other two,
and only when the URL is truthy (present and non-empty). -/
theorem build_message_image_independent (p : Prompt) (t u : String) :
    buildMessage p t (some u) =
      (buildMessage p t none).map (fun ms =>
        ms ++ (if u = "" then [] else [⟨MessageRole.user, [ContentPart.image_url u]⟩])) := by
  cases hrt : renderedUserText p t with
  | none => simp [buildMessage, hrt]
  | some txt => by_cases hu : u = "" <;> simp [buildMessage, hrt, imageTail, hu]

/-- C6: when the blob listing yields zero files, `list_public_urls` raises
the not-found error instead of returning a mapping, and context assembly
propagates the same error. -/
theorem empty_listing_raises (o : BucketOracle) (path : String) (qs : List Question)
    (h : list_files o = []) :
    list_public_urls o path = Except.error "No files found" ∧
    assembleContexts qs o path = Except.error "No files found" := by
  have h1 : list_public_urls o path = Except.error "No files found" := by
    simp only [list_public_urls]
    rw [if_pos h]
  exact ⟨h1, by simp only [assembleContexts]; rw [h1]; rfl⟩

/-- C6 witness: a bucket whose listing is empty makes both the URL listing
and context assembly raise the not-found error. -/
theorem empty_listing_raises_witness :
    list_public_urls emptyBucket "p" = Except.error "No files found" ∧
    assembleContexts [] emptyBucket "p" = Except.error "No files found" :=
  empty_listing_raises emptyBucket "p" [] rfl

/-- C7: under a successful signed-URL listing, the context assembled for a
question carries the question transcript, and it has an image URL exactly
when some listed file (paired with its signed URL) has a file stem equal
to the question identifier; in particular a question with no stem-matching
file gets no image reference, not an error. -/
theorem context_image_matches_stem (q : Question) (o : BucketOracle) (path : String)
    (m : List (String × String)) (h : list_public_urls o path = Except.ok m) :
    (buildContext (pyDictGet m) q).prompt.transcript = q.transcript ∧
    ((buildContext (pyDictGet m) q).prompt.image_url.isSome ↔
      ∃ fu ∈ (list_files o).zip
        (o.signedUrls ((list_files o).map (fun f => path ++ "/" ++ f.name))),
        pyStem fu.1.name = q.question_id) := by
  refine ⟨rfl, ?_⟩
  simp only [list_public_urls] at h
  by_cases hemp : list_files o = []
  · rw [if_pos hemp] at h
    exact absurd h (by simp)
  · rw [if_neg hemp, Except.ok.injEq] at h
    subst h
    show (pyDictGet _ q.question_id).isSome ↔ _
    rw [pyDictGet_isSome]
    constructor
    · rintro ⟨p, hp, hpk⟩
      rw [List.mem_map] at hp
      obtain ⟨fu, hfu, rfl⟩ := hp
      exact ⟨fu, hfu, hpk⟩
    · rintro ⟨fu, hfu, hstem⟩
      exact ⟨(pyStem fu.1.name, fu.2), List.mem_map.mpr ⟨fu, hfu, rfl⟩, hstem⟩

/-- C7 witness: one question `q1`, one listed file `q1.png` with signed URL
`SIGNED`; the assembled context keeps the transcript and has an image URL
because the file stem `q1` equals the question identifier. -/
theorem context_image_matches_stem_witness :
    (buildContext (pyDictGet [("q1", "SIGNED")]) q1Question).prompt.transcript =
      q1Question.transcript ∧
    ((buildContext (pyDictGet [("q1", "SIGNED")]) q1Question).prompt.image_url.isSome ↔
      ∃ fu ∈ (list_files oneFileBucket).zip
        (oneFileBucket.signedUrls
          ((list_files oneFileBucket).map (fun f => "pilot_images" ++ "/" ++ f.name))),
        pyStem fu.1.name = q1Question.question_id) :=
  context_image_matches_stem q1Question oneFileBucket "pilot_images" [("q1", "SIGNED")] rfl

/-- C8: whenever `invoke` returns a successful result, the usage counters
of the result are those of the remote response of the final attempt, taken
verbatim; usage from earlier failed attempts is not accumulated. -/
theorem invoke_usage_final {P : Type} (sch : Option (Schema P)) (oracle : Nat → RemoteResponse)
    (retriesArg : Option Nat) (selfRetries : Nat) (st : Store) (msgsRef : Nat)
    (resp : Response P)
    (h : (invoke sch oracle retriesArg selfRetries st msgsRef).2.2 = Except.ok resp) :
    1 ≤ (invoke sch oracle retriesArg selfRetries st msgsRef).2.1.length ∧
    resp.usage =
      (oracle ((invoke sch oracle retriesArg selfRetries st msgsRef).2.1.length - 1)).usage := by
  have hu := invokeLoop_usage sch oracle (retriesArg.getD selfRetries)
    (retriesArg.getD selfRetries) 0
    (st.alloc (st.read msgsRef)).1 (st.alloc (st.read msgsRef)).2 resp h
  simpa using hu

/-- C8 witness: failure on attempt 1 (usage 1, 2, 3) and success on attempt
2 (usage 10, 20, 30); the result carries the usage of attempt 2 only. -/
theorem invoke_usage_final_witness :
    1 ≤ (invoke (some natSchema) failThenOK (some 3) 5 storeQ 0).2.1.length ∧
    (⟨"r", ⟨MessageRole.assistant, [ContentPart.text "42"]⟩, none, "m", ⟨10, 20, 30⟩,
      some 42⟩ : Response Nat).usage =
      (failThenOK ((invoke (some natSchema) failThenOK (some 3) 5 storeQ 0).2.1.length
        - 1)).usage :=
  invoke_usage_final (some natSchema) failThenOK (some 3) 5 storeQ 0
    ⟨"r", ⟨MessageRole.assistant, [ContentPart.text "42"]⟩, none, "m", ⟨10, 20, 30⟩, some 42⟩
    rfl

/-- C9: `invoke` never mutates the caller message list: whatever the
schema, budget and reply sequence, and whether the call returns or raises,
the cell the caller passed in reads the same after the call as before
(only the freshly allocated copy is extended by the retry loop). -/
theorem invoke_preserves_caller {P : Type} (sch : Option (Schema P))
    (oracle : Nat → RemoteResponse) (retriesArg : Option Nat) (selfRetries : Nat)
    (st : Store) (msgsRef : Nat) (h : msgsRef < st.cells.length) :
    (invoke sch oracle retriesArg selfRetries st msgsRef).1.read msgsRef = st.read msgsRef := by
  have hne : msgsRef ≠ (st.alloc (st.read msgsRef)).2 := by
    simp only [Store.alloc]
    omega
  show (invokeLoop sch oracle (retriesArg.getD selfRetries) (retriesArg.getD selfRetries) 0
    (st.alloc (st.read msgsRef)).1 (st.alloc (st.read msgsRef)).2).1.read msgsRef =
    st.read msgsRef
  rw [invokeLoop_frame sch oracle _ _ 0 _ _ msgsRef hne, Store.read_alloc_lt _ _ _ h]

/-- C9 witness: after a full failing retry run, the caller cell still holds
the original one-message conversation. -/
theorem invoke_preserves_caller_witness :
    (invoke (some natSchema) alwaysBad (some 2) 5 storeQ 0).1.read 0 = storeQ.read 0 :=
  invoke_preserves_caller (some natSchema) alwaysBad (some 2) 5 storeQ 0 (by decide)
